import Mathlib

/-!
Shallow embedding of the pomyu timer application (`src/main.rs`).

Modelling conventions:
* `Duration` values are represented in whole milliseconds as `ℕ`
  (the source builds every duration with `Duration::from_millis` /
  `Duration::from_secs`, and `as_secs_f64` becomes division by 1000 in `ℚ`).
* Wall-clock readings (`js_sys::Date::new_0().get_time()`, a JavaScript
  timestamp, which is an integral number of milliseconds) are `ℤ`.
* The Rust cast `(x : f64) as u64` saturates negative values to zero; it is
  modelled by `Int.toNat`.
* The floating-point minute arithmetic of `App::notify` is modelled exactly
  in `ℚ`, with `f64::floor` as `Int.floor` and `(x : f64) as i64` as
  truncation toward zero of a rational.
* The `gloo` `Interval` handle is an opaque JS resource; only the data part
  of the `interval: Option<(Interval, u64, f64)>` field (tick count and tick
  start timestamp) is modelled.
* A Rust panic (the `.expect(..)` in `App::notify`) is modelled by returning
  `none` from the corresponding `Option`-valued function.
-/

/-- `struct Period { name: String, duration: Duration }` (duration in ms). -/
structure Period where
  name : String
  duration : ℕ
  deriving DecidableEq, Repr

/-- `{ title: "Done!", body }` notification event built in `App::notify`. -/
structure Note where
  title : String
  body : String
  deriving DecidableEq, Repr

/-- The `App` component state (`struct App`), minus the opaque JS `Interval`
handle: `interval` keeps only the `(tick_count, tick_start)` data. -/
structure App where
  messages : List String
  interval : Option (ℕ × ℤ)
  progress : Option ℕ
  periods : List Period
  current_period : ℕ
  deriving DecidableEq, Repr

/-- `enum Msg`. -/
inductive Msg where
  | Start
  | Reset
  | Pause
  | Finish
  | Resume
  | Tick (milliseconds : ℕ)
  | UpdateName (period_number : ℕ) (new_name : String)
  | UpdateMinutes (period_number : ℕ) (minutes : ℕ)
  | UpdateSeconds (period_number : ℕ) (seconds : ℕ)
  deriving DecidableEq, Repr

/-- `Duration::as_secs_f64` on a millisecond count. -/
def asSecs (millis : ℕ) : ℚ := (millis : ℚ) / 1000

/-- Rust `(x : f64) as i64`: truncation toward zero, on the exact rational. -/
def f64_as_i64 (q : ℚ) : ℤ := q.num / (q.den : ℤ)

/-- `App::get_current_period_length`: the configured duration at
`current_period`, defaulting to 25 minutes when out of bounds. -/
def get_current_period_length (app : App) : ℕ :=
  ((app.periods[app.current_period]?).map Period.duration).getD (25 * 60 * 1000)

/-- `App::reset`: clear the interval and the progress. -/
def App.clearSession (app : App) : App :=
  { app with interval := none, progress := none }

/-- `fn update_progress(progress, expected_millisecond_update, tick_count, tick_start)`:
given the wall-clock reading `time_now`, returns the new `(progress, tick_count)`.
`new_progress = (time_now - tick_start) as u64` saturates at 0 when the clock
moved before `tick_start`; the new progress is
`Duration::max(new_progress, progress + update)`. -/
def update_progress (progress : ℕ) (expected_millisecond_update : ℕ)
    (tick_count : ℕ) (tick_start time_now : ℤ) : ℕ × ℕ :=
  let update := expected_millisecond_update
  let new_progress := (time_now - tick_start).toNat
  (max new_progress (progress + update), tick_count + 1)

/-- `minutes_left` as computed twice in `App::notify`:
`(current_period_length.as_secs_f64() - prog.as_secs_f64()) / 60.`. -/
def minutesLeft (period_len elapsed : ℕ) : ℚ :=
  (asSecs period_len - asSecs elapsed) / 60

/-- The overdue boundary index `(-minutes_left / 5.).floor()` used by the
notification gate in `App::notify`. -/
def overdueIdx (period_len elapsed : ℕ) : ℤ :=
  ⌊(-minutesLeft period_len elapsed) / 5⌋

/-- The emission condition of the gate in `App::notify`:
`minutes_left_now <= 0.` and
`notification_periods_since_over.floor() > notification_periods_before.floor()`. -/
def gateFires (period_len before after : ℕ) : Bool :=
  decide (minutesLeft period_len after ≤ 0) &&
    decide (overdueIdx period_len before < overdueIdx period_len after)

/-- The gate condition as the specification words it: fire iff
`minutesLeft(after) <= 0` and the boundary index strictly increased, where a
`before` with `minutesLeft(before) > 0` counts as "no boundary crossed yet"
(before-index `-∞`). -/
def specFires (period_len before after : ℕ) : Prop :=
  minutesLeft period_len after ≤ 0 ∧
    (0 < minutesLeft period_len before ∨
      overdueIdx period_len before < overdueIdx period_len after)

instance (P b a : ℕ) : Decidable (specFires P b a) := by
  unfold specFires; infer_instance

/-- The note-building part of `App::notify` (lines 68-102): compares the
pre- and post-update `minutes_left`, and when a new 5-minute overdue boundary
has been crossed builds the `{ title: "Done!", body }` event.  The body uses
`notification_periods_since_over * notification_period_len` cast `as i64`. -/
def noteForTick (period_len : ℕ) (period_name : String) (before after : ℕ) :
    Option Note :=
  let minutes_left_before : ℚ := (asSecs period_len - asSecs before) / 60
  let minutes_left_now : ℚ := (asSecs period_len - asSecs after) / 60
  if minutes_left_now ≤ 0 then
    let notification_period_len : ℚ := 5
    let nps_since_over : ℚ := (-minutes_left_now) / notification_period_len
    let nps_before : ℚ := (-minutes_left_before) / notification_period_len
    if ⌊nps_before⌋ < ⌊nps_since_over⌋ then
      let note_message : String :=
        if 1 ≤ nps_since_over then
          period_name ++ " has been over for " ++
            toString (f64_as_i64 (nps_since_over * notification_period_len)) ++
            " minutes"
        else
          period_name ++ " is over"
      some { title := "Done!", body := note_message }
    else
      none
  else
    none

/-- `App::notify(milliseconds_update)` at wall-clock reading `time_now`.
Returns `none` when the code panics (`self.interval.as_mut().expect(..)`
with `interval = None` while `progress` is set); otherwise returns the
updated state together with the (optional) emitted notification event. -/
def notify (app : App) (milliseconds_update : ℕ) (time_now : ℤ) :
    Option (App × Option Note) :=
  match app.progress, app.interval with
  | none, _ => some (app, none)
  | some _, none => none
  | some prog, some (tick_count, tick_start) =>
      let current_period_length := get_current_period_length app
      let period_name : String :=
        match app.periods[app.current_period]? with
        | some period => period.name
        | none => "Work"
      let p := update_progress prog milliseconds_update tick_count tick_start time_now
      some ({ app with progress := some p.1, interval := some (p.2, tick_start) },
        noteForTick current_period_length period_name prog p.1)

/-- `Msg::Resume` handling in `App::update`: fresh interval with
`tick_count = 0` and `tick_start = get_utc_millis()`. -/
def resume (app : App) (time_now : ℤ) : App :=
  { app with interval := some (0, time_now),
             messages := app.messages ++ ["resume"] }

/-- `Msg::UpdateName` handling: rename period `i` when it exists. -/
def updatePeriodName (periods : List Period) (i : ℕ) (new_name : String) : List Period :=
  match periods[i]? with
  | some period => periods.set i { period with name := new_name }
  | none => periods

/-- `Msg::UpdateMinutes` handling: subtract the existing whole minutes, then
add the new minutes (durations in ms, `as_secs` is division by 1000). -/
def updatePeriodMinutes (periods : List Period) (i : ℕ) (minutes : ℕ) : List Period :=
  match periods[i]? with
  | some period =>
      periods.set i { period with
        duration := period.duration - 60000 * (period.duration / 1000 / 60)
          + minutes * 60000 }
  | none => periods

/-- `Msg::UpdateSeconds` handling: round down to the nearest whole minute,
then add the new seconds. -/
def updatePeriodSeconds (periods : List Period) (i : ℕ) (seconds : ℕ) : List Period :=
  match periods[i]? with
  | some period =>
      periods.set i { period with
        duration := 60000 * (period.duration / 1000 / 60) + seconds * 1000 }
  | none => periods

/-- `App::update`: the message handler.  `time_now` is the wall-clock reading
used by `Resume`/`Start` (interval creation) and by `Tick` (inside
`update_progress`).  Returns `none` exactly when handling the message
panics (which only the `Tick` path can). -/
def update (app : App) (msg : Msg) (time_now : ℤ) : Option App :=
  match msg with
  | Msg.Start =>
      let app1 := resume app time_now
      some { app1 with progress := some 0, messages := ["Interval started!"] }
  | Msg.Resume => some (resume app time_now)
  | Msg.Reset =>
      let app1 := app.clearSession
      some { app1 with messages := app1.messages ++ ["reset"] }
  | Msg.Pause =>
      some { app with interval := none, messages := app.messages ++ ["pause"] }
  | Msg.Finish =>
      let app1 := app.clearSession
      some { app1 with
        messages := app1.messages ++ ["Finish!"],
        interval := none,
        progress := none,
        current_period := (app1.current_period + 1) % max 1 app1.periods.length }
  | Msg.Tick milliseconds => (notify app milliseconds time_now).map Prod.fst
  | Msg.UpdateName i new_name => some { app with periods := updatePeriodName app.periods i new_name }
  | Msg.UpdateMinutes i minutes => some { app with periods := updatePeriodMinutes app.periods i minutes }
  | Msg.UpdateSeconds i seconds => some { app with periods := updatePeriodSeconds app.periods i seconds }

/-- Iterated ticks: fold `update_progress` over a list of
`(expected_millisecond_update, time_now)` readings, keeping `tick_start`
fixed (as within one run segment); returns the final `(progress, tick_count)`. -/
def runTicks (progress tick_count : ℕ) (tick_start : ℤ) :
    List (ℕ × ℤ) → ℕ × ℕ
  | [] => (progress, tick_count)
  | (u, now) :: rest =>
      let p := update_progress progress u tick_count tick_start now
      runTicks p.1 p.2 tick_start rest

/-- The elapsed progress after the first `i` ticks of a tick stream. -/
def elapsedAfter (progress tick_count : ℕ) (tick_start : ℤ)
    (ticks : List (ℕ × ℤ)) (i : ℕ) : ℕ :=
  (runTicks progress tick_count tick_start (ticks.take i)).1

/-- The environment of `App::load_periods`: the outcomes of the JS calls
`window()`, `window.local_storage()`, `storage.get("pomyu_periods")` and of
`serde_json::from_str` on the stored string. -/
structure StorageEnv where
  window_present : Bool
  local_storage : Except String (Option Unit)
  stored_value : Except String (Option String)
  parse : String → Except String (List Period)

/-- `App::load_periods`: each `?` / `ok_or` early-returns an error before the
assignment `self.periods = ...`, which only happens on a successful parse.
Returns the (possibly updated) state together with the `Result`. -/
def load_periods (env : StorageEnv) (app : App) : App × Except String Unit :=
  if env.window_present = false then (app, Except.error "no window")
  else
    match env.local_storage with
    | Except.error e => (app, Except.error e)
    | Except.ok none => (app, Except.error "no local storage")
    | Except.ok (some _) =>
        match env.stored_value with
        | Except.error e => (app, Except.error e)
        | Except.ok none => (app, Except.error "pomyu_periods not found")
        | Except.ok (some content) =>
            match env.parse content with
            | Except.error e => (app, Except.error e)
            | Except.ok ps => ({ app with periods := ps }, Except.ok ())

/-- The built-in default period list of `App::create`. -/
def defaultPeriods : List Period :=
  [ { name := "Focus", duration := 25 * 60 * 1000 },
    { name := "Small break", duration := 5 * 60 * 1000 },
    { name := "Focus", duration := 25 * 60 * 1000 },
    { name := "Full break", duration := 15 * 60 * 1000 } ]

/-- The freshly built `Self { .. }` record of `App::create`. -/
def initApp : App :=
  { messages := [], interval := none, progress := none,
    periods := defaultPeriods, current_period := 0 }

/-- `App::create`: build the default state, then
`log_error(this.load_periods(), ..)` — the load result is logged and
discarded, the (possibly updated) state is returned. -/
def create (env : StorageEnv) : App :=
  (load_periods env initApp).1

/-- A state with no configured periods. -/
def emptyApp : App :=
  { messages := [], interval := none, progress := none,
    periods := [], current_period := 0 }

/-- A state 1790 s into an (unconfigured, hence 25-minute) period, whose run
started at wall-clock 0 with no ticks counted yet. -/
def cexApp : App :=
  { messages := [], interval := some (0, 0), progress := some 1790000,
    periods := [], current_period := 0 }

/-- The state `cexApp` reaches after one `Tick(1000)` at wall-clock reading
1990000 ms. -/
def cexAfterApp : App :=
  { messages := [], interval := some (1, 0), progress := some 1990000,
    periods := [], current_period := 0 }

/-- The notification that tick emits. -/
def cexNote : Note :=
  { title := "Done!", body := "Work has been over for 8 minutes" }

/-- A paused state: progress is set but no interval is running. -/
def pausedApp : App :=
  { messages := [], interval := none, progress := some 0,
    periods := defaultPeriods, current_period := 0 }

/-- A running state: one minute of progress, interval started at wall-clock 0. -/
def runApp : App :=
  { messages := [], interval := some (0, 0), progress := some 60000,
    periods := defaultPeriods, current_period := 0 }

/-- A state with a 3-period cycle. -/
def app3demo : App :=
  { messages := [], interval := none, progress := none,
    periods := [ { name := "A", duration := 60000 },
                 { name := "B", duration := 120000 },
                 { name := "C", duration := 180000 } ],
    current_period := 0 }

/-- A storage environment in which `window()` returns `None`. -/
def envNoWindow : StorageEnv :=
  { window_present := false, local_storage := Except.ok none,
    stored_value := Except.ok none, parse := fun _ => Except.error "parse" }

/-- One tick step grows the progress: the new elapsed is
`max new_progress (progress + update) ≥ progress`. -/
lemma le_update_progress (progress u tick_count : ℕ) (tick_start time_now : ℤ) :
    progress ≤ (update_progress progress u tick_count tick_start time_now).1 :=
  le_trans (Nat.le_add_right _ _) (le_max_right _ _)

/-- Running more ticks never shrinks the progress. -/
lemma le_runTicks (progress tick_count : ℕ) (tick_start : ℤ)
    (ticks : List (ℕ × ℤ)) :
    progress ≤ (runTicks progress tick_count tick_start ticks).1 := by
  induction ticks generalizing progress tick_count with
  | nil => exact le_refl _
  | cons t rest ih =>
      obtain ⟨u, now⟩ := t
      exact le_trans (le_update_progress progress u tick_count tick_start now)
        (ih _ _)

/-- `runTicks` over an appended stream runs the two parts in sequence. -/
lemma runTicks_append (progress tick_count : ℕ) (tick_start : ℤ)
    (l1 l2 : List (ℕ × ℤ)) :
    runTicks progress tick_count tick_start (l1 ++ l2) =
      runTicks (runTicks progress tick_count tick_start l1).1
        (runTicks progress tick_count tick_start l1).2 tick_start l2 := by
  induction l1 generalizing progress tick_count with
  | nil => rfl
  | cons t rest ih =>
      obtain ⟨u, now⟩ := t
      simp only [List.cons_append, runTicks]
      exact ih _ _

/-- The overdue boundary index is monotone in the elapsed value. -/
lemma overdueIdx_mono (period_len : ℕ) {a b : ℕ} (h : a ≤ b) :
    overdueIdx period_len a ≤ overdueIdx period_len b := by
  apply Int.floor_mono
  unfold minutesLeft asSecs
  have hab : (a : ℚ) ≤ (b : ℚ) := by exact_mod_cast h
  linarith

/-- The emitted-note component of `notify` is `some` exactly when the gate
condition holds. -/
lemma noteForTick_isSome (period_len : ℕ) (period_name : String) (b a : ℕ) :
    (noteForTick period_len period_name b a).isSome = gateFires period_len b a := by
  unfold noteForTick gateFires overdueIdx minutesLeft
  dsimp only
  split_ifs with h1 h2 <;> simp_all

/-- Explicit form of `notify` on a state with progress and interval present. -/
lemma notify_eq (app : App) (u : ℕ) (now : ℤ) (prog tc : ℕ) (ts : ℤ)
    (hp : app.progress = some prog) (hi : app.interval = some (tc, ts)) :
    notify app u now =
      some ({ app with
                progress := some (update_progress prog u tc ts now).1,
                interval := some ((update_progress prog u tc ts now).2, ts) },
            noteForTick (get_current_period_length app)
              (((app.periods[app.current_period]?).map Period.name).getD "Work")
              prog (update_progress prog u tc ts now).1) := by
  unfold notify
  rw [hp, hi]
  cases hper : app.periods[app.current_period]? <;> rfl

/-- The code's gate condition coincides with the specification's wording of
it (the "before index is -∞" convention included). -/
lemma gateFires_iff_specFires (P b a : ℕ) :
    gateFires P b a = true ↔ specFires P b a := by
  unfold gateFires specFires
  simp only [Bool.and_eq_true, decide_eq_true_eq]
  constructor
  · rintro ⟨h1, h2⟩
    exact ⟨h1, Or.inr h2⟩
  · rintro ⟨h1, h2⟩
    refine ⟨h1, ?_⟩
    rcases h2 with h2 | h2
    · have hb : overdueIdx P b < 0 := by
        rw [← not_le]
        intro hcon
        rw [overdueIdx, Int.floor_nonneg] at hcon
        have : (-minutesLeft P b) / 5 < 0 :=
          div_neg_of_neg_of_pos (by linarith) (by norm_num)
        linarith
      have ha : 0 ≤ overdueIdx P a := by
        rw [overdueIdx, Int.floor_nonneg]
        exact div_nonneg (by linarith) (by norm_num)
      exact lt_of_lt_of_le hb ha
    · exact h2

/-- The emitted notification, when there is one, is built from the truncated
total overdue minutes `-minutes_left_now` (cast `as i64`). -/
lemma noteForTick_eq (P : ℕ) (name : String) (b a : ℕ) (note : Note)
    (h : noteForTick P name b a = some note) :
    note.title = "Done!" ∧
    note.body =
      (if 1 ≤ (-minutesLeft P a) / 5 then
        name ++ " has been over for " ++
          toString (f64_as_i64 (-minutesLeft P a)) ++ " minutes"
      else name ++ " is over") := by
  unfold noteForTick at h
  unfold minutesLeft
  dsimp only at h
  rw [div_mul_cancel₀ _ (by norm_num : (5 : ℚ) ≠ 0)] at h
  split_ifs at h ⊢ with h1 h2 h3 <;>
    (injection h with h; subst h; exact ⟨rfl, rfl⟩)

/-- C1: for every sequence of calls to `update_progress`, with arbitrary
wall-clock readings (including readings that move backward) and arbitrary
nominal tick lengths, the elapsed progress after call `i + 1` is at least the
elapsed progress after call `i`: `elapsed` never decreases. -/
theorem C1_elapsed_monotone (progress tick_count : ℕ) (tick_start : ℤ)
    (ticks : List (ℕ × ℤ)) (i : ℕ) :
    elapsedAfter progress tick_count tick_start ticks i ≤
      elapsedAfter progress tick_count tick_start ticks (i + 1) := by
  unfold elapsedAfter
  rw [List.take_succ, runTicks_append]
  exact le_runTicks _ _ _ _

/-- C2: one call to `update_progress` with nominal tick length `t` sets the
elapsed progress to `max (now - runStartWallClock) (old + t)` (the wall-clock
difference saturating at zero, as a `Duration` must) and increments the tick
count by exactly one; consequently the new elapsed is at least the wall-clock
advance `now - tick_start` and at least `old + t`. -/
theorem C2_update_progress_step (prog t tc : ℕ) (ts now : ℤ) :
    (update_progress prog t tc ts now).1 = max (now - ts).toNat (prog + t) ∧
    (update_progress prog t tc ts now).2 = tc + 1 ∧
    now - ts ≤ ((update_progress prog t tc ts now).1 : ℤ) ∧
    prog + t ≤ (update_progress prog t tc ts now).1 := by
  have e : (update_progress prog t tc ts now).1 = max (now - ts).toNat (prog + t) := rfl
  refine ⟨rfl, rfl, ?_, ?_⟩
  · rw [e]
    refine le_trans (Int.self_le_toNat _) ?_
    exact_mod_cast le_max_left ((now - ts).toNat) (prog + t)
  · rw [e]
    exact le_max_right _ _

/-- C3: the notification gate.  (1) A `Tick` on a state with progress and a
running interval emits a notification exactly when the gate condition
`gateFires` holds for the pre- and post-update elapsed values; (2) `gateFires` is
exactly the specification's condition (`minutesLeft(after) ≤ 0` and the
5-minute overdue boundary index strictly increased, a not-yet-overdue
`before` counting as "no boundary crossed yet"); (3) across any monotone
tick stream, boundary indices at firing steps strictly increase, so each
boundary fires at most once; (4) ticks that stay within one boundary window
(equal boundary indices, in particular repeat ticks with unchanged elapsed)
fire zero notifications. -/
theorem C3_notification_gate :
    (∀ (app : App) (u : ℕ) (now : ℤ) (prog tc : ℕ) (ts : ℤ),
        app.progress = some prog → app.interval = some (tc, ts) →
        ((notify app u now).bind Prod.snd).isSome
          = gateFires (get_current_period_length app) prog
              (update_progress prog u tc ts now).1) ∧
    (∀ P b a : ℕ, gateFires P b a = true ↔ specFires P b a) ∧
    (∀ (P : ℕ) (e : ℕ → ℕ), Monotone e → ∀ i j : ℕ, i < j →
        gateFires P (e i) (e (i + 1)) = true →
        gateFires P (e j) (e (j + 1)) = true →
        overdueIdx P (e (i + 1)) < overdueIdx P (e (j + 1))) ∧
    (∀ P b a : ℕ, overdueIdx P b = overdueIdx P a →
        gateFires P b a = false) := by
  refine ⟨?_, gateFires_iff_specFires, ?_, ?_⟩
  · intro app u now prog tc ts hp hi
    rw [notify_eq app u now prog tc ts hp hi]
    exact noteForTick_isSome _ _ _ _
  · intro P e hmono i j hij hfi hfj
    have h1 : overdueIdx P (e j) < overdueIdx P (e (j + 1)) := by
      simp only [gateFires, Bool.and_eq_true, decide_eq_true_eq] at hfj
      exact hfj.2
    have h2 : overdueIdx P (e (i + 1)) ≤ overdueIdx P (e j) :=
      overdueIdx_mono P (hmono (by omega))
    exact lt_of_le_of_lt h2 h1
  · intro P b a h
    simp [gateFires, h]

/-- C9: the `Reset` event clears the interval and the progress and leaves
`current_period` and the period list unchanged. -/
theorem C9_reset_frame (app : App) (t : ℤ) :
    (update app Msg.Reset t).map
        (fun a => (a.interval, a.progress, a.current_period, a.periods)) =
      some (none, none, app.current_period, app.periods) := rfl

/-- C10: whenever `current_period` is out of bounds for the period list
(including an empty list), the period length used by the progress display
and the notification gate (`get_current_period_length`, as called by
`App::notify` and by `view`) defaults to 25 minutes (1500 seconds). -/
theorem C10_default_period_length (app : App)
    (h : app.periods.length ≤ app.current_period) :
    get_current_period_length app = 25 * 60 * 1000 := by
  unfold get_current_period_length
  rw [List.getElem?_eq_none h]
  rfl

/-- Witness for C10 at the empty period list. -/
theorem C10_default_period_length_witness :
    get_current_period_length emptyApp = 25 * 60 * 1000 :=
  C10_default_period_length emptyApp (by decide)


/-- When the gate condition holds, the emitted notification has title
"Done!" and a body built from the truncated total overdue minutes. -/
lemma noteForTick_eq_of_fires (P : ℕ) (name : String) (b a : ℕ)
    (h : gateFires P b a = true) :
    noteForTick P name b a =
      some { title := "Done!",
             body := if 1 ≤ (-minutesLeft P a) / 5 then
                 name ++ " has been over for " ++
                   toString (f64_as_i64 (-minutesLeft P a)) ++ " minutes"
               else name ++ " is over" } := by
  unfold gateFires overdueIdx minutesLeft at h
  simp only [Bool.and_eq_true, decide_eq_true_eq] at h
  unfold noteForTick minutesLeft
  dsimp only
  rw [div_mul_cancel₀ _ (by norm_num : (5 : ℚ) ≠ 0)]
  rw [if_pos h.1, if_pos h.2]

/-- Evaluation of the counterexample tick: from 1790 s elapsed, a `Tick(1000)`
arriving at wall-clock 1990000 ms advances the elapsed time to 1990 s and
emits "Work has been over for 8 minutes". -/
lemma cex_notify_eval :
    notify cexApp 1000 1990000 = some (cexAfterApp, some cexNote) := by
  rw [notify_eq cexApp 1000 1990000 1790000 0 0 rfl rfl]
  have e1 : (update_progress 1790000 1000 0 0 1990000).1 = 1990000 := rfl
  have e2 : (update_progress 1790000 1000 0 0 1990000).2 = 1 := rfl
  have e3 : get_current_period_length cexApp = 1500000 := rfl
  have e4 : ((cexApp.periods[cexApp.current_period]?).map Period.name).getD "Work"
      = "Work" := rfl
  rw [e1, e2, e3, e4]
  have hg : gateFires 1500000 1790000 1990000 = true := by
    have h2 : minutesLeft 1500000 1990000 ≤ 0 := by norm_num [minutesLeft, asSecs]
    have h3 : overdueIdx 1500000 1790000 = 0 := by
      norm_num [overdueIdx, minutesLeft, asSecs, Int.floor_eq_iff]
    have h4 : overdueIdx 1500000 1990000 = 1 := by
      norm_num [overdueIdx, minutesLeft, asSecs, Int.floor_eq_iff]
    unfold gateFires
    rw [h3, h4]
    simp [h2]
  rw [noteForTick_eq_of_fires 1500000 "Work" 1790000 1990000 hg]
  have hc : (1 : ℚ) ≤ (-minutesLeft 1500000 1990000) / 5 := by
    norm_num [minutesLeft, asSecs]
  rw [if_pos hc]
  have hn : f64_as_i64 (-minutesLeft 1500000 1990000) = 8 := by
    norm_num [f64_as_i64, minutesLeft, asSecs]
  rw [hn]
  rfl

/-- Counterexample to C4 as stated: at the default period length of 1500 s,
a tick that jumps the elapsed time from 1790 s to 1990 s crosses the first
5-minute overdue boundary (`boundaryIndex = 1`, so the claim predicts the
body "Work has been over for 5 minutes"), but the code formats the truncated
total overdue minutes `(-minutes_left_now) as i64 = 8`. -/
theorem C4_counterexample :
    ((notify cexApp 1000 1990000).bind Prod.snd) =
        some { title := "Done!", body := "Work has been over for 8 minutes" } ∧
    overdueIdx (get_current_period_length cexApp) 1990000 * 5 = 5 ∧
    ("Work has been over for 8 minutes" : String) ≠
      "Work has been over for 5 minutes" := by
  refine ⟨?_, ?_, by decide⟩
  · rw [cex_notify_eval]
    rfl
  · have e3 : get_current_period_length cexApp = 1500000 := rfl
    rw [e3]
    have h4 : overdueIdx 1500000 1990000 = 1 := by
      norm_num [overdueIdx, minutesLeft, asSecs, Int.floor_eq_iff]
    rw [h4]
    norm_num

/-- C4 (amended): for every notification that fires, the event is a pure
function of state: the title is "Done!"; if the overdue amount
`-minutesLeft(after)` has reached 5 minutes (equivalently, the crossed
boundary index is at least 1), the body is
"{periodName} has been over for {trunc(-minutesLeft(after))} minutes" — the
truncated total overdue minutes at this tick, which equals
`boundaryIndex * 5` only when the tick lands exactly on a boundary —
otherwise the body is "{periodName} is over"; `periodName` defaults to
"Work" when no period is configured at the current index. -/
theorem C4_message_body (app : App) (u prog tc : ℕ) (ts now : ℤ)
    (st : App) (note : Note)
    (hp : app.progress = some prog) (hi : app.interval = some (tc, ts))
    (h : notify app u now = some (st, some note)) :
    note.title = "Done!" ∧
    note.body =
      (if 1 ≤ (-minutesLeft (get_current_period_length app)
                  (update_progress prog u tc ts now).1) / 5 then
        (((app.periods[app.current_period]?).map Period.name).getD "Work") ++
          " has been over for " ++
          toString (f64_as_i64 (-minutesLeft (get_current_period_length app)
            (update_progress prog u tc ts now).1)) ++ " minutes"
      else
        (((app.periods[app.current_period]?).map Period.name).getD "Work") ++
          " is over") := by
  rw [notify_eq app u now prog tc ts hp hi] at h
  simp only [Option.some.injEq, Prod.mk.injEq] at h
  exact noteForTick_eq _ _ _ _ _ h.2

/-- Witness for C4 (amended) at the concrete tick of the counterexample. -/
theorem C4_message_body_witness : cexNote.title = "Done!" :=
  (C4_message_body cexApp 1000 1790000 0 0 1990000 cexAfterApp cexNote
    rfl rfl cex_notify_eval).1

/-- Counterexample to C5 as stated: in a state where progress is set but no
interval is running (a paused session), handling a delivered `Tick` panics —
`App::notify` calls `.expect("in notify, interval must not be none")` on the
`None` interval (modelled as the `none` result). -/
theorem C5_counterexample :
    update pausedApp (Msg.Tick 1000) 0 = none := rfl

/-- C5 (amended): handling `Tick` never panics in any state in which the
scheduler can correctly deliver one — any state where an interval is running
(and also any state with no progress, where the tick is a no-op on the
session).  Only the unreachable-under-correct-scheduling combination
"progress set, interval gone" panics. -/
theorem C5_tick_total (app : App) (u : ℕ) (now : ℤ)
    (h : app.progress = none ∨ app.interval.isSome = true) :
    (update app (Msg.Tick u) now).isSome = true := by
  rcases h with h | h
  · simp [update, notify, h]
  · cases hp : app.progress with
    | none => simp [update, notify, hp]
    | some prog =>
        obtain ⟨⟨tc, ts⟩, hi⟩ := Option.isSome_iff_exists.mp h
        simp [update, notify_eq app u now prog tc ts hp hi]

/-- Witness for C5 (amended) at a concrete running state. -/
theorem C5_tick_total_witness :
    (update runApp (Msg.Tick 1000) 5000).isSome = true :=
  C5_tick_total runApp 1000 5000 (Or.inr rfl)

/-- C6: the `Finish` (or `Skip`) event discards the session (clears interval
and progress), leaves the period list unchanged, and sets `current_period`
to `(current_period + 1) % max 1 periods.length`; with a 3-period cycle and
an initial index below 3, three `Finish` events return `current_period` to
its original value, and with zero periods configured `Finish` never faults
and `current_period` lands on 0. -/
theorem C6_finish_cycle (app : App) (t1 t2 t3 : ℤ) :
    ((update app Msg.Finish t1).map
        (fun a => (a.interval, a.progress, a.periods, a.current_period)) =
      some (none, none, app.periods,
        (app.current_period + 1) % max 1 app.periods.length)) ∧
    (app.periods.length = 3 → app.current_period < 3 →
      ((((update app Msg.Finish t1).bind fun a => update a Msg.Finish t2).bind
          fun a => update a Msg.Finish t3).map App.current_period =
        some app.current_period)) ∧
    (app.periods.length = 0 →
      (update app Msg.Finish t1).map App.current_period = some 0) := by
  refine ⟨rfl, ?_, ?_⟩
  · intro h3 hcp
    show some ((((app.current_period + 1) % max 1 app.periods.length + 1)
        % max 1 app.periods.length + 1) % max 1 app.periods.length) =
      some app.current_period
    rw [h3]
    have hm : max 1 3 = 3 := rfl
    rw [hm]
    exact congrArg some (by omega)
  · intro h0
    show some ((app.current_period + 1) % max 1 app.periods.length) = some 0
    rw [h0]
    have hm : max 1 0 = 1 := rfl
    rw [hm]
    exact congrArg some (by omega)

/-- Witness for C6 at a concrete 3-period state. -/
theorem C6_finish_cycle_witness :
    (((update app3demo Msg.Finish 0).bind fun a => update a Msg.Finish 0).bind
        fun a => update a Msg.Finish 0).map App.current_period =
      some app3demo.current_period :=
  (C6_finish_cycle app3demo 0 0 0).2.1 rfl (by decide)

/-- C7: for a running session, `Pause` keeps the elapsed progress unchanged;
`Resume` resets the tick count to 0 and the run-start wall clock to the
resume time while keeping the elapsed progress; and `Pause` immediately
followed by `Resume` (at wall-clock `nowR`) followed by one tick of nominal
length `u` (at wall-clock `nowT`) yields elapsed
`max (nowT - nowR) (prog + u) ≥ prog + u` — the wall-clock gap during the
pause (anything before `nowR`) is never credited. -/
theorem C7_pause_resume_tick (app : App) (prog u : ℕ) (nowR nowT : ℤ)
    (hp : app.progress = some prog) :
    ((update app Msg.Pause 0).map App.progress = some (some prog)) ∧
    (((update app Msg.Pause 0).bind fun a => update a Msg.Resume nowR).map
        (fun a => (a.interval, a.progress)) =
      some (some (0, nowR), some prog)) ∧
    ((((update app Msg.Pause 0).bind fun a => update a Msg.Resume nowR).bind
        fun a => update a (Msg.Tick u) nowT).map App.progress =
      some (some (max (nowT - nowR).toNat (prog + u)))) ∧
    prog + u ≤ max (nowT - nowR).toNat (prog + u) := by
  refine ⟨?_, ?_, ?_, le_max_right _ _⟩
  · show some app.progress = some (some prog)
    exact congrArg some hp
  · show some (some ((0 : ℕ), nowR), app.progress) =
      some (some ((0 : ℕ), nowR), some prog)
    rw [hp]
  · show ((notify { app with
        interval := some ((0 : ℕ), nowR),
        messages := app.messages ++ ["pause"] ++ ["resume"] } u nowT).map
          Prod.fst).map App.progress =
      some (some (max (nowT - nowR).toNat (prog + u)))
    have hrec := notify_eq
      (App.mk (app.messages ++ ["pause"] ++ ["resume"]) (some ((0 : ℕ), nowR))
        app.progress app.periods app.current_period)
      u nowT prog 0 nowR hp rfl
    rw [hrec]
    rfl

/-- Witness for C7 at a concrete running state. -/
theorem C7_pause_resume_tick_witness :
    60000 + 1000 ≤ max ((5000 : ℤ) - 0).toNat (60000 + 1000) :=
  (C7_pause_resume_tick runApp 60000 1000 0 5000 rfl).2.2.2

/-- C8: for every failure of `App::load_periods` (missing window or storage,
missing "pomyu_periods" key, or a parse error on the stored string), the
function returns an error without modifying the caller's period list; in
particular `App::create` never fails, and on a load error it keeps the
built-in default periods. -/
theorem C8_load_failure_frame (env : StorageEnv) (app : App) :
    (∀ e, (load_periods env app).2 = Except.error e →
        (load_periods env app).1 = app) ∧
    (∀ e, (load_periods env initApp).2 = Except.error e →
        (create env).periods = defaultPeriods) := by
  have key : ∀ (a : App) (e : String),
      (load_periods env a).2 = Except.error e → (load_periods env a).1 = a := by
    intro a e he
    unfold load_periods at he ⊢
    by_cases hw : env.window_present = false
    · simp [hw]
    · simp only [hw, if_false] at he ⊢
      rcases hs : env.local_storage with e1 | os
      · simp [hs]
      · rcases os with _ | u
        · simp [hs]
        · simp only [hs] at he ⊢
          rcases hv : env.stored_value with e2 | oc
          · simp [hv]
          · rcases oc with _ | c
            · simp [hv]
            · simp only [hv] at he ⊢
              rcases hpc : env.parse c with e3 | ps
              · simp [hpc]
              · simp [hpc] at he
  refine ⟨fun e he => key app e he, fun e he => ?_⟩
  unfold create
  rw [key initApp e he]
  rfl

/-- Witness for C8 in the environment where `window()` is absent. -/
theorem C8_load_failure_frame_witness :
    (load_periods envNoWindow initApp).1 = initApp :=
  (C8_load_failure_frame envNoWindow initApp).1 "no window" rfl
